import Mathlib

/-!
Shallow embedding of `api/index.py`, the single source file of the
`vercel_fastApi_eshop` service: a FastAPI endpoint that computes latency and
uptime statistics per region from a JSON dataset loaded once at startup.

Numeric values are modelled as rationals (`ℚ`); Python floats are idealised as
exact arithmetic.  Pandas data frames are modelled by the `DataFrame`
structure below, which records the row list together with whether the frame
has the dataset columns at all: `pd.DataFrame()` (built when the data file is
missing) has no columns, and column access on it raises `KeyError`, while a
filtered frame keeps the columns of the frame it came from even when it has
zero rows.
-/

/-- One record of the JSON dataset `q-vercel-latency.json`: fields `region`,
`latency_ms`, `uptime_pct`. -/
structure Observation where
  region : String
  latency_ms : ℚ
  uptime_pct : ℚ
deriving DecidableEq, Repr

/-- A pandas data frame as this program uses one: a list of rows plus the fact
of whether the frame carries the three dataset columns.  `pd.DataFrame()` and
`pd.DataFrame([])` carry no columns; a frame built from a non-empty record
list carries all three, and filtering preserves them. -/
structure DataFrame where
  hasCols : Bool
  rows : List Observation
deriving DecidableEq, Repr

/-- Pandas `DataFrame.empty`: true when any axis has length zero, so a frame
with columns but no rows is empty, and so is the column-less frame. -/
def DataFrame.empty (df : DataFrame) : Bool :=
  df.rows.isEmpty || !df.hasCols

/-- Integer floor of a rational number: `q.num / q.den` with integer floor
division (the denominator is positive). -/
def ratFloor (q : ℚ) : ℤ := q.num / (q.den : ℤ)

/-- Round to the nearest integer, ties to the even integer: the rounding used
by Python `round` (idealised to exact decimal arithmetic). -/
def roundHalfEven (x : ℚ) : ℤ :=
  let f := ratFloor x
  let frac := x - (f : ℚ)
  if frac < 1/2 then f
  else if 1/2 < frac then f + 1
  else if f % 2 = 0 then f else f + 1

/-- Python `round(x, 2)`. -/
def round2 (x : ℚ) : ℚ := (roundHalfEven (x * 100) : ℚ) / 100

/-- Python `round(x, 3)`. -/
def round3 (x : ℚ) : ℚ := (roundHalfEven (x * 1000) : ℚ) / 1000

/-- Pandas `Series.mean`: the sum of the values divided by their number. -/
def seriesMean (xs : List ℚ) : ℚ := xs.sum / (xs.length : ℚ)

/-- The 0-based index selected by pandas `Series.quantile(0.95,
interpolation=higher)` on `n` values: `ceil(0.95 * (n - 1))`, written with
natural-number arithmetic as `(19 * (n - 1) + 19) / 20`. -/
def p95IndexHigher (n : ℕ) : ℕ := (19 * (n - 1) + 19) / 20

/-- Pandas `Series.quantile(0.95, interpolation=higher)`: sort the values
ascending and take the element at index `ceil(0.95 * (n - 1))`. -/
def quantileHigher095 (xs : List ℚ) : ℚ :=
  (List.insertionSort (· ≤ ·) xs).getD (p95IndexHigher xs.length) 0

/-- The fixed-shape per-region result record (`MetricsResult` of the spec). -/
structure Metrics where
  avg_latency : ℚ
  p95_latency : ℚ
  avg_uptime : ℚ
  breaches : ℕ
deriving DecidableEq, Repr

/-- The zero-valued record returned for an empty subset. -/
def zeroMetrics : Metrics :=
  { avg_latency := 0, p95_latency := 0, avg_uptime := 0, breaches := 0 }

/-- Embedding of `calculate_region_metrics` from `api/index.py`: on an empty
frame return the zero record, otherwise the rounded mean latency, the rounded
pandas higher-interpolation 95th percentile, the rounded mean uptime, and the
count of rows whose latency is at least the threshold. -/
def calculate_region_metrics (df_region : DataFrame) (threshold : ℚ) : Metrics :=
  if df_region.empty then zeroMetrics
  else
    let lats := df_region.rows.map Observation.latency_ms
    let ups := df_region.rows.map Observation.uptime_pct
    { avg_latency := round2 (seriesMean lats)
      p95_latency := round2 (quantileHigher095 lats)
      avg_uptime := round3 (seriesMean ups)
      breaches := (lats.filter (fun x => decide (threshold ≤ x))).length }

/-- The validated request body (`LatencyRequest(BaseModel)` of `api/index.py`):
a list of region names and a threshold whose declared default is `180`. -/
structure LatencyRequest where
  regions : List String
  threshold_ms : ℚ
deriving DecidableEq, Repr

/-- Embedding of `DF_FULL[DF_FULL[region].isin(regions)]`: raises `KeyError`
when the frame has no `region` column (so in particular on the column-less
frame produced when the data file is missing), otherwise keeps the rows whose
region is in the requested list. -/
def regionIsin (df : DataFrame) (regions : List String) : Except String DataFrame :=
  if df.hasCols then
    Except.ok { hasCols := df.hasCols, rows := df.rows.filter (fun o => regions.contains o.region) }
  else Except.error "KeyError: region"

/-- Embedding of `df_filtered[df_filtered[region] == region]`: raises
`KeyError` when the frame has no `region` column, otherwise keeps the rows
whose region equals the given string exactly (case-sensitive). -/
def regionEq (df : DataFrame) (r : String) : Except String DataFrame :=
  if df.hasCols then
    Except.ok { hasCols := df.hasCols, rows := df.rows.filter (fun o => o.region == r) }
  else Except.error "KeyError: region"

/-- Python dict assignment `d[k] = v`: replaces the value at an existing key in
place, keeping its position, and otherwise appends the new key at the end. -/
def dictInsert (k : String) (v : Metrics) : List (String × Metrics) → List (String × Metrics)
  | [] => [(k, v)]
  | (k2, v2) :: rest =>
    if k2 = k then (k, v) :: rest else (k2, v2) :: dictInsert k v rest

/-- The `for region in regions` loop of `get_latency_metrics`: for each
requested region, filter the pre-filtered frame down to that region, run the
calculator, and store the result in the `results` dict. -/
def buildResults (df_filtered : DataFrame) (threshold : ℚ) :
    List String → List (String × Metrics) → Except String (List (String × Metrics))
  | [], acc => Except.ok acc
  | r :: rest, acc =>
    match regionEq df_filtered r with
    | Except.error e => Except.error e
    | Except.ok df_region =>
        buildResults df_filtered threshold rest
          (dictInsert r (calculate_region_metrics df_region threshold) acc)

/-- Embedding of the body of the POST handler `get_latency_metrics` of
`api/index.py`, after validation: filter the full frame to the requested
regions, then loop over the requested regions building the `results` dict.
An uncaught pandas `KeyError` is surfaced as `Except.error`. -/
def get_latency_metrics (DF_FULL : DataFrame) (request_data : LatencyRequest) :
    Except String (List (String × Metrics)) :=
  match regionIsin DF_FULL request_data.regions with
  | Except.error e => Except.error e
  | Except.ok df_filtered =>
      buildResults df_filtered request_data.threshold_ms request_data.regions []

/-- Embedding of the module-level dataset load: on success a frame holding the
parsed records (with columns exactly when the record list is non-empty, as
with `pd.DataFrame`), and on `FileNotFoundError` the column-less empty frame
`pd.DataFrame()`. -/
def loadDataset : Option (List Observation) → DataFrame
  | none => { hasCols := false, rows := [] }
  | some recs => { hasCols := !recs.isEmpty, rows := recs }

/-- A JSON value as far as the request body schema needs one. -/
inductive JsonVal where
  | str (s : String)
  | num (q : ℚ)
  | arr (xs : List JsonVal)
  | boolean (b : Bool)
deriving Repr

/-- A raw (not yet validated) request body: each schema field either absent or
holding some JSON value. -/
structure RawBody where
  regions : Option JsonVal
  threshold_ms : Option JsonVal

/-- Read a JSON value as a string. -/
def JsonVal.asStr : JsonVal → Option String
  | JsonVal.str s => some s
  | _ => none

/-- Read a JSON value as a number. -/
def JsonVal.asNum : JsonVal → Option ℚ
  | JsonVal.num q => some q
  | _ => none

/-- Read a JSON value as a list of strings. -/
def JsonVal.asStrList : JsonVal → Option (List String)
  | JsonVal.arr xs => xs.mapM JsonVal.asStr
  | _ => none

/-- Modelled from the spec: the request-body validation that FastAPI and
pydantic perform against the declared `LatencyRequest` schema before the
handler runs (the framework code is not part of this repository; only the
schema declaration is).  Per the spec, a missing `regions` field or a
wrong-typed field is rejected with a client error, and a missing
`threshold_ms` defaults to `180`. -/
def validate_body (b : RawBody) : Except String LatencyRequest :=
  match b.regions with
  | none => Except.error "regions: field required"
  | some v =>
    match v.asStrList with
    | none => Except.error "regions: value is not a valid list of strings"
    | some rs =>
      match b.threshold_ms with
      | none => Except.ok { regions := rs, threshold_ms := 180 }
      | some tv =>
        match tv.asNum with
        | none => Except.error "threshold_ms: value is not a valid number"
        | some t => Except.ok { regions := rs, threshold_ms := t }

/-- An HTTP response to the POST endpoint: a 200 response carrying the
results mapping (wrapped under the `regions` key by the handler), a 4xx
validation rejection, or a 5xx response from an uncaught exception. -/
inductive Response where
  | ok (results : List (String × Metrics))
  | clientError (msg : String)
  | serverError (msg : String)
deriving Repr

/-- The full POST round trip: validate the body against the schema; on
failure answer with a client error and never invoke the handler; on success
run the handler, turning an uncaught exception into a server error. -/
def handle_post (DF_FULL : DataFrame) (body : RawBody) : Response :=
  match validate_body body with
  | Except.error e => Response.clientError e
  | Except.ok req =>
    match get_latency_metrics DF_FULL req with
    | Except.error e => Response.serverError e
    | Except.ok results => Response.ok results

/-- The process-wide state: the one module-level binding `DF_FULL` holding the
frame loaded at cold start. -/
structure AppState where
  DF_FULL : DataFrame
deriving DecidableEq, Repr

/-- Reading the module-level `DF_FULL` binding: yields its value and leaves
the process state as it is. -/
def readDF (st : AppState) : DataFrame × AppState := (st.DF_FULL, st)

/-- The POST round trip as a state transformer on the process state: the
handler reads `DF_FULL` and computes a request-local result; the Python code
contains no assignment to `DF_FULL` and no in-place pandas operation, so the
translation threads the state through unchanged. -/
def app_post (st : AppState) (body : RawBody) : Response × AppState :=
  let read := readDF st
  (handle_post read.1 body, read.2)

/-- Modelled from the spec, for comparison with the code: the smallest value
in the list such that at least 95 percent of the values are less than or equal
to it (the nearest-rank round-up rule the spec describes), taken as 0 on the
empty list. -/
def specNearestRankP95 (xs : List ℚ) : ℚ :=
  match (List.insertionSort (· ≤ ·) xs).find?
      (fun v => decide ((95 : ℚ)/100 * (xs.length : ℚ)
        ≤ ((xs.filter (fun x => decide (x ≤ v))).length : ℚ))) with
  | some v => v
  | none => 0

/-- An observation of the `us-east` region with the given latency. -/
def usEastObs (l : ℚ) : Observation :=
  { region := "us-east", latency_ms := l, uptime_pct := 99 }

/-- A 20-row frame for one region with the distinct latencies 1, 2, ..., 20. -/
def df20 : DataFrame :=
  { hasCols := true, rows := (List.range 20).map (fun k => usEastObs ((k : ℚ) + 1)) }

/-- The 5-row frame of the hand-computed example of the spec: latencies
100, 110, 120, 200, 500. -/
def df5 : DataFrame :=
  { hasCols := true
    rows := [usEastObs 100, usEastObs 110, usEastObs 120, usEastObs 200, usEastObs 500] }

example : quantileHigher095 [100, 110, 120, 200, 500] = 500 := by
  with_unfolding_all rfl

example : specNearestRankP95 [100, 110, 120, 200, 500] = 500 := by
  with_unfolding_all rfl

example : quantileHigher095 ((List.range 20).map (fun k => (k : ℚ) + 1)) = 20 := by
  with_unfolding_all rfl

example : specNearestRankP95 ((List.range 20).map (fun k => (k : ℚ) + 1)) = 19 := by
  with_unfolding_all rfl

example : round2 (seriesMean [100, 110, 120, 200, 500]) = 206 := by
  with_unfolding_all rfl

example : round2 (1234567/100000) = 1235/100 := by
  with_unfolding_all rfl

example : round3 (98005/1000) = 98005/1000 := by
  with_unfolding_all rfl

/-- C2: for every threshold and every empty region subset (with or without
columns), the calculator returns exactly the zero-valued record
`{avg_latency := 0, p95_latency := 0, avg_uptime := 0, breaches := 0}`; it is
a total function, so no error, NaN or null can come out. -/
theorem c2_empty_subset_zero_record (hc : Bool) (t : ℚ) :
    calculate_region_metrics { hasCols := hc, rows := [] } t = zeroMetrics := rfl

/-- C3: for every non-empty region subset and every threshold, `breaches` is
exactly the number of observations with `latency_ms >= threshold` (inclusive),
it never exceeds the subset size (as a natural number it is also nonnegative),
and it is 0 when no observation reaches the threshold. -/
theorem c3_breaches_exact_count (df : DataFrame) (t : ℚ) (h : df.empty = false) :
    (calculate_region_metrics df t).breaches
        = (df.rows.filter (fun o => decide (t ≤ o.latency_ms))).length ∧
      (calculate_region_metrics df t).breaches ≤ df.rows.length ∧
      ((∀ o ∈ df.rows, o.latency_ms < t) → (calculate_region_metrics df t).breaches = 0) := by
  have hne : ¬ (df.empty = true) := by simp [h]
  unfold calculate_region_metrics
  rw [if_neg hne]
  refine ⟨?_, ?_, ?_⟩
  · simp [List.filter_map, Function.comp_def]
  · calc ((df.rows.map Observation.latency_ms).filter (fun x => decide (t ≤ x))).length
        ≤ (df.rows.map Observation.latency_ms).length := List.length_filter_le _ _
      _ = df.rows.length := List.length_map _ _
  · intro hall
    simp only [List.filter_map, Function.comp_def, List.length_map, List.length_eq_zero]
    rw [List.filter_eq_nil_iff]
    intro o ho
    simpa using not_le.mpr (hall o ho)

/-- C3 witness: the general theorem applied to a concrete 3-row frame with
threshold 150 (latencies 100, 160, 200 give 2 breaches). -/
theorem c3_breaches_exact_count_witness :
    ({ hasCols := true
       rows := [usEastObs 100, usEastObs 160, usEastObs 200] } : DataFrame).empty = false ∧
      ((calculate_region_metrics
            { hasCols := true, rows := [usEastObs 100, usEastObs 160, usEastObs 200] } 150).breaches
          = (([usEastObs 100, usEastObs 160, usEastObs 200] : List Observation).filter
              (fun o => decide ((150:ℚ) ≤ o.latency_ms))).length ∧
        (calculate_region_metrics
            { hasCols := true, rows := [usEastObs 100, usEastObs 160, usEastObs 200] } 150).breaches
          ≤ ([usEastObs 100, usEastObs 160, usEastObs 200] : List Observation).length ∧
        ((∀ o ∈ ([usEastObs 100, usEastObs 160, usEastObs 200] : List Observation),
            o.latency_ms < 150) →
          (calculate_region_metrics
              { hasCols := true, rows := [usEastObs 100, usEastObs 160, usEastObs 200] } 150).breaches
            = 0)) :=
  ⟨rfl, c3_breaches_exact_count _ 150 rfl⟩

/-- C5: for every non-empty region subset, `avg_latency` is the arithmetic
mean of the latencies rounded to 2 decimal places, and `avg_uptime` is the
arithmetic mean of the uptimes rounded to 3 decimal places. -/
theorem c5_avg_rounding (df : DataFrame) (t : ℚ) (h : df.empty = false) :
    (calculate_region_metrics df t).avg_latency
        = round2 ((df.rows.map Observation.latency_ms).sum / (df.rows.length : ℚ)) ∧
      (calculate_region_metrics df t).avg_uptime
        = round3 ((df.rows.map Observation.uptime_pct).sum / (df.rows.length : ℚ)) := by
  have hne : ¬ (df.empty = true) := by simp [h]
  unfold calculate_region_metrics
  rw [if_neg hne]
  constructor
  · simp [seriesMean, List.length_map]
  · simp [seriesMean, List.length_map]

/-- C5 witness: the general theorem applied to the 5-row example frame with
threshold 180; the hypothesis of non-emptiness is discharged by computation. -/
theorem c5_avg_rounding_witness :
    df5.empty = false ∧
      ((calculate_region_metrics df5 180).avg_latency
          = round2 ((df5.rows.map Observation.latency_ms).sum / (df5.rows.length : ℚ)) ∧
        (calculate_region_metrics df5 180).avg_uptime
          = round3 ((df5.rows.map Observation.uptime_pct).sum / (df5.rows.length : ℚ))) :=
  ⟨rfl, c5_avg_rounding df5 180 rfl⟩

/-- C4: the code recovers from a missing data file at startup (an empty
column-less frame is held and the service starts), but contrary to the claim a
subsequent POST request does not succeed: `DF_FULL[region]` raises `KeyError`
on the column-less frame, so a valid request for `us-east` is answered with a
server error instead of the zero-record. -/
theorem c4_missing_file_post_keyerror :
    loadDataset none = { hasCols := false, rows := [] } ∧
      handle_post (loadDataset none)
          { regions := some (JsonVal.arr [JsonVal.str "us-east"]), threshold_ms := none }
        = Response.serverError "KeyError: region" :=
  ⟨rfl, rfl⟩

/-- C7: a POST body that omits `threshold_ms` is handled exactly as the same
body with `threshold_ms` set to the number 180, whatever the dataset and
whatever the `regions` field holds. -/
theorem c7_default_threshold (df : DataFrame) (rv : Option JsonVal) :
    handle_post df { regions := rv, threshold_ms := none }
      = handle_post df { regions := rv, threshold_ms := some (JsonVal.num 180) } := by
  unfold handle_post validate_body
  cases rv with
  | none => rfl
  | some v => cases hv : v.asStrList <;> simp [JsonVal.asNum]

/-- C8: a request body that fails schema validation is answered with a client
error carrying the validation message, and the answer does not depend on the
dataset at all, so the metrics calculator never runs on it. -/
theorem c8_validation_rejects_first (df df2 : DataFrame) (body : RawBody) (e : String)
    (h : validate_body body = Except.error e) :
    handle_post df body = Response.clientError e ∧
      handle_post df2 body = handle_post df body := by
  unfold handle_post
  rw [h]
  exact ⟨rfl, rfl⟩

/-- C8 witness: the general theorem applied to the body that omits the
required `regions` field, compared across two different datasets. -/
theorem c8_validation_rejects_first_witness :
    validate_body { regions := none, threshold_ms := none }
        = Except.error "regions: field required" ∧
      (handle_post df5 { regions := none, threshold_ms := none }
          = Response.clientError "regions: field required" ∧
        handle_post (loadDataset none) { regions := none, threshold_ms := none }
          = handle_post df5 { regions := none, threshold_ms := none }) :=
  ⟨rfl, c8_validation_rejects_first df5 (loadDataset none) _ _ rfl⟩

/-- C9: handling a POST request leaves the process state (the `DF_FULL`
frame loaded at startup) unchanged, and the response is a pure function of
that state and the request body; the request allocates only its local
result. -/
theorem c9_dataset_read_only (st : AppState) (body : RawBody) :
    (app_post st body).2 = st ∧ (app_post st body).1 = handle_post st.DF_FULL body :=
  ⟨rfl, rfl⟩

/-- C1 counterexample: on 20 distinct latencies 1, ..., 20 the code (pandas
quantile with higher interpolation, index `ceil(0.95 * 19) = 19`) returns 20,
while the smallest value with at least 95 percent of the values at or below it
(nearest-rank round-up rule, rank `ceil(0.95 * 20) = 19`) is 19; so the claim
as stated is false on the code. -/
theorem c1_p95_nearest_rank_counterexample :
    (calculate_region_metrics df20 180).p95_latency = 20 ∧
      round2 (specNearestRankP95 (df20.rows.map Observation.latency_ms)) = 19 ∧
      (calculate_region_metrics df20 180).p95_latency
        ≠ round2 (specNearestRankP95 (df20.rows.map Observation.latency_ms)) := by
  refine ⟨?_, ?_, ?_⟩ <;> with_unfolding_all decide

lemma p95IndexHigher_lt (n : ℕ) (h : 1 ≤ n) : p95IndexHigher n < n := by
  unfold p95IndexHigher
  omega

lemma p95IndexHigher_eq_ceil (n : ℕ) (h : 1 ≤ n) :
    (p95IndexHigher n : ℤ) = ⌈(95 : ℚ)/100 * ((n : ℚ) - 1)⌉ := by
  symm
  rw [Int.ceil_eq_iff]
  have key : (95 : ℚ)/100 * ((n : ℚ) - 1) = ((19 * (n - 1) : ℕ) : ℚ) / 20 := by
    push_cast [Nat.cast_sub h]
    ring
  have h1 : (20 * p95IndexHigher n : ℕ) < 19 * (n - 1) + 20 := by
    unfold p95IndexHigher
    omega
  have h2 : 19 * (n - 1) ≤ 20 * p95IndexHigher n := by
    unfold p95IndexHigher
    omega
  have h1q : (20 : ℚ) * (p95IndexHigher n : ℚ) < ((19 * (n - 1) : ℕ) : ℚ) + 20 := by
    exact_mod_cast h1
  have h2q : ((19 * (n - 1) : ℕ) : ℚ) ≤ (20 : ℚ) * (p95IndexHigher n : ℚ) := by
    exact_mod_cast h2
  constructor
  · rw [key, lt_div_iff₀ (by norm_num : (0 : ℚ) < 20)]
    push_cast
    push_cast at h1q
    linarith
  · rw [key, div_le_iff₀ (by norm_num : (0 : ℚ) < 20)]
    push_cast
    push_cast at h2q
    linarith

lemma countP_le_of_sorted_get (s : List ℚ) (hs : s.Sorted (· ≤ ·)) (i : ℕ)
    (hi : i < s.length) :
    i + 1 ≤ s.countP (fun x => decide (x ≤ s.get ⟨i, hi⟩)) := by
  have hall : ∀ a ∈ s.take (i + 1), (fun x => decide (x ≤ s.get ⟨i, hi⟩)) a = true := by
    intro a ha
    obtain ⟨j, hj⟩ := List.mem_iff_get.mp ha
    have hjlt : (j : ℕ) < i + 1 := by
      have := j.isLt
      simp [List.length_take] at this
      omega
    have hget : a = s.get ⟨j, lt_of_lt_of_le hjlt (by omega)⟩ := by
      rw [← hj]
      simp [List.get_take]
    have hle : s.get ⟨j, lt_of_lt_of_le hjlt (by omega)⟩ ≤ s.get ⟨i, hi⟩ :=
      hs.rel_get_of_le (by simpa using Nat.lt_succ_iff.mp hjlt)
    simp only [decide_eq_true_eq]
    rw [hget]
    exact hle
  have htake : (s.take (i + 1)).countP (fun x => decide (x ≤ s.get ⟨i, hi⟩)) = i + 1 := by
    rw [List.countP_eq_length.mpr hall, List.length_take]
    omega
  calc i + 1 = (s.take (i + 1)).countP (fun x => decide (x ≤ s.get ⟨i, hi⟩)) := htake.symm
    _ ≤ (s.take (i + 1)).countP (fun x => decide (x ≤ s.get ⟨i, hi⟩))
          + (s.drop (i + 1)).countP (fun x => decide (x ≤ s.get ⟨i, hi⟩)) := Nat.le_add_right _ _
    _ = s.countP (fun x => decide (x ≤ s.get ⟨i, hi⟩)) := by
          rw [← List.countP_append, List.take_append_drop]

lemma countP_lt_of_sorted_get (s : List ℚ) (hs : s.Sorted (· ≤ ·)) (i : ℕ)
    (hi : i < s.length) (w : ℚ) (hw : w < s.get ⟨i, hi⟩) :
    s.countP (fun x => decide (x ≤ w)) ≤ i := by
  have hdrop : (s.drop i).countP (fun x => decide (x ≤ w)) = 0 := by
    rw [List.countP_eq_zero]
    intro a ha
    obtain ⟨j, hj⟩ := List.mem_iff_get.mp ha
    have hjlt : i + (j : ℕ) < s.length := by
      have := j.isLt
      simp [List.length_drop] at this
      omega
    have hget : a = s.get ⟨i + (j : ℕ), hjlt⟩ := by
      rw [← hj]
      simp [List.get_drop]
    have hge : s.get ⟨i, hi⟩ ≤ s.get ⟨i + (j : ℕ), hjlt⟩ :=
      hs.rel_get_of_le (by simp)
    have : w < a := by
      rw [hget]
      exact lt_of_lt_of_le hw hge
    simp [not_le.mpr this]
  calc s.countP (fun x => decide (x ≤ w))
      = (s.take i).countP (fun x => decide (x ≤ w))
          + (s.drop i).countP (fun x => decide (x ≤ w)) := by
        rw [← List.countP_append, List.take_append_drop]
    _ = (s.take i).countP (fun x => decide (x ≤ w)) := by simp [hdrop]
    _ ≤ (s.take i).length := List.countP_le_length _
    _ ≤ i := by simp [List.length_take]

lemma dataFrame_not_empty (df : DataFrame) (h : df.empty = false) :
    df.rows.isEmpty = false ∧ df.hasCols = true := by
  unfold DataFrame.empty at h
  constructor
  · cases hr : df.rows.isEmpty <;> simp [hr] at h ⊢
  · cases hc : df.hasCols <;> simp [hc] at h ⊢

/-- C1 (amended): for every non-empty region subset, `p95_latency` is the
2-decimal rounding of an observed latency `v`, namely the value at 0-based
index `ceil(0.95 * (n - 1))` of the ascending sort (pandas higher
interpolation): at least `ceil(0.95 * (n - 1)) + 1` of the values are at or
below `v`, and every strictly smaller value has fewer than that many values
at or below it.  This coincides with the nearest-rank round-up rule of the
original claim for all n not divisible by 20 (in particular it gives 500 on
the latencies 100, 110, 120, 200, 500), but differs from it when 20 divides
n, as the counterexample with latencies 1, ..., 20 shows. -/
theorem c1_p95_higher_interpolation (df : DataFrame) (t : ℚ) (h : df.empty = false) :
    ∃ v : ℚ,
      (calculate_region_metrics df t).p95_latency = round2 v ∧
        v ∈ df.rows.map Observation.latency_ms ∧
        ⌈(95 : ℚ)/100 * ((df.rows.length : ℚ) - 1)⌉.toNat + 1
            ≤ ((df.rows.map Observation.latency_ms).filter
                (fun x => decide (x ≤ v))).length ∧
        ∀ w ∈ df.rows.map Observation.latency_ms, w < v →
          ((df.rows.map Observation.latency_ms).filter
              (fun x => decide (x ≤ w))).length
            < ⌈(95 : ℚ)/100 * ((df.rows.length : ℚ) - 1)⌉.toNat + 1 := by
  obtain ⟨hrows, hcols⟩ := dataFrame_not_empty df h
  have hne : ¬ (df.empty = true) := by simp [h]
  have hn : 1 ≤ df.rows.length := by
    have : df.rows ≠ [] := by simpa [List.isEmpty_iff] using hrows
    exact List.length_pos.mpr this
  set lats := df.rows.map Observation.latency_ms with hlats
  have hlen : lats.length = df.rows.length := List.length_map _ _
  set s := List.insertionSort (· ≤ ·) lats with hsdef
  have hperm : List.Perm s lats := List.perm_insertionSort _ _
  have hsorted : s.Sorted (· ≤ ·) := List.sorted_insertionSort _ _
  have hslen : s.length = df.rows.length := by rw [hperm.length_eq, hlen]
  have hi : p95IndexHigher df.rows.length < s.length := by
    rw [hslen]
    exact p95IndexHigher_lt _ hn
  set i := p95IndexHigher df.rows.length with hidef
  set v := s.get ⟨i, hi⟩ with hvdef
  have hceil : ⌈(95 : ℚ)/100 * ((df.rows.length : ℚ) - 1)⌉.toNat = i := by
    rw [← p95IndexHigher_eq_ceil _ hn, Int.toNat_natCast]
  have hcount_eq : ∀ w : ℚ,
      (lats.filter (fun x => decide (x ≤ w))).length
        = s.countP (fun x => decide (x ≤ w)) := by
    intro w
    rw [← List.countP_eq_length_filter, hperm.countP_eq]
  refine ⟨v, ?_, ?_, ?_, ?_⟩
  · unfold calculate_region_metrics
    rw [if_neg hne]
    simp only
    congr 1
    unfold quantileHigher095
    rw [← hlats, ← hsdef, hlen, ← hidef]
    rw [List.getD_eq_getElem?_getD, List.getElem?_eq_getElem hi]
    simp [hvdef]
  · exact hperm.mem_iff.mp (List.get_mem s i hi)
  · rw [hceil, hcount_eq v]
    exact countP_le_of_sorted_get s hsorted i hi
  · intro w _ hwv
    rw [hceil, hcount_eq w]
    exact Nat.lt_succ_of_le (countP_lt_of_sorted_get s hsorted i hi w hwv)

set_option maxRecDepth 4000 in
/-- C1 witness: the amended theorem applied to the 5-row example frame of the
spec, for which the code indeed reports a 95th-percentile latency of 500. -/
theorem c1_p95_higher_interpolation_witness :
    (calculate_region_metrics df5 180).p95_latency = 500 ∧
      df5.empty = false ∧
      (∃ v : ℚ,
        (calculate_region_metrics df5 180).p95_latency = round2 v ∧
          v ∈ df5.rows.map Observation.latency_ms ∧
          ⌈(95 : ℚ)/100 * ((df5.rows.length : ℚ) - 1)⌉.toNat + 1
              ≤ ((df5.rows.map Observation.latency_ms).filter
                  (fun x => decide (x ≤ v))).length ∧
          ∀ w ∈ df5.rows.map Observation.latency_ms, w < v →
            ((df5.rows.map Observation.latency_ms).filter
                (fun x => decide (x ≤ w))).length
              < ⌈(95 : ℚ)/100 * ((df5.rows.length : ℚ) - 1)⌉.toNat + 1) :=
  ⟨by with_unfolding_all decide, rfl, c1_p95_higher_interpolation df5 180 rfl⟩

lemma dictInsert_nil (k : String) (v : Metrics) : dictInsert k v [] = [(k, v)] := rfl

lemma dictInsert_cons_self (k : String) (v v2 : Metrics) (rest : List (String × Metrics)) :
    dictInsert k v ((k, v2) :: rest) = (k, v) :: rest := by
  simp [dictInsert]

lemma dictInsert_cons_other (k k2 : String) (hk : k2 ≠ k) (v v2 : Metrics)
    (rest : List (String × Metrics)) :
    dictInsert k v ((k2, v2) :: rest) = (k2, v2) :: dictInsert k v rest := by
  simp only [dictInsert]
  rw [if_neg hk]

lemma dictInsert_mem_keys (k a : String) (v : Metrics) (d : List (String × Metrics)) :
    a ∈ (dictInsert k v d).map Prod.fst ↔ a = k ∨ a ∈ d.map Prod.fst := by
  induction d with
  | nil => simp [dictInsert_nil]
  | cons p rest ih =>
    obtain ⟨k2, v2⟩ := p
    by_cases hk : k2 = k
    · subst hk
      rw [dictInsert_cons_self]
      simp only [List.map_cons, List.mem_cons]
      tauto
    · rw [dictInsert_cons_other k k2 hk]
      simp only [List.map_cons, List.mem_cons, ih]
      tauto

lemma dictInsert_nodup_keys (k : String) (v : Metrics) (d : List (String × Metrics))
    (h : (d.map Prod.fst).Nodup) : ((dictInsert k v d).map Prod.fst).Nodup := by
  induction d with
  | nil => simp [dictInsert_nil]
  | cons p rest ih =>
    obtain ⟨k2, v2⟩ := p
    simp only [List.map_cons, List.nodup_cons] at h
    by_cases hk : k2 = k
    · subst hk
      rw [dictInsert_cons_self]
      simp only [List.map_cons, List.nodup_cons]
      exact h
    · rw [dictInsert_cons_other k k2 hk]
      simp only [List.map_cons, List.nodup_cons]
      refine ⟨?_, ih h.2⟩
      rw [dictInsert_mem_keys]
      push_neg
      exact ⟨hk, h.1⟩

lemma dictInsert_lookup_self (k : String) (v : Metrics) (d : List (String × Metrics)) :
    List.lookup k (dictInsert k v d) = some v := by
  induction d with
  | nil =>
    rw [dictInsert_nil]
    simp [List.lookup]
  | cons p rest ih =>
    obtain ⟨k2, v2⟩ := p
    by_cases hk : k2 = k
    · subst hk
      rw [dictInsert_cons_self]
      simp [List.lookup]
    · have hbeq : (k == k2) = false := beq_eq_false_iff_ne.mpr (fun h2 => hk h2.symm)
      rw [dictInsert_cons_other k k2 hk]
      simp [List.lookup, hbeq, ih]

lemma dictInsert_lookup_other (k a : String) (v : Metrics) (d : List (String × Metrics))
    (hak : a ≠ k) : List.lookup a (dictInsert k v d) = List.lookup a d := by
  have hbeq : (a == k) = false := beq_eq_false_iff_ne.mpr hak
  induction d with
  | nil =>
    rw [dictInsert_nil]
    simp [List.lookup, hbeq]
  | cons p rest ih =>
    obtain ⟨k2, v2⟩ := p
    by_cases hk : k2 = k
    · subst hk
      rw [dictInsert_cons_self]
      simp [List.lookup, hbeq]
    · by_cases hak2 : a = k2
      · subst hak2
        rw [dictInsert_cons_other k a hk]
        simp [List.lookup]
      · have hbeq2 : (a == k2) = false := beq_eq_false_iff_ne.mpr hak2
        rw [dictInsert_cons_other k k2 hk]
        simp [List.lookup, hbeq2, ih]

lemma dictInsert_values (f : String → Metrics) (k : String) (d : List (String × Metrics))
    (h : ∀ p ∈ d, p.2 = f p.1) : ∀ p ∈ dictInsert k (f k) d, p.2 = f p.1 := by
  induction d with
  | nil =>
    intro p hp
    rw [dictInsert_nil] at hp
    simp only [List.mem_singleton] at hp
    subst hp
    rfl
  | cons q rest ih =>
    obtain ⟨k2, v2⟩ := q
    intro p hp
    by_cases hk : k2 = k
    · subst hk
      rw [dictInsert_cons_self] at hp
      rcases List.mem_cons.mp hp with hp1 | hp2
      · subst hp1
        rfl
      · exact h p (List.mem_cons_of_mem _ hp2)
    · rw [dictInsert_cons_other k k2 hk] at hp
      rcases List.mem_cons.mp hp with hp1 | hp2
      · subst hp1
        exact h (k2, v2) (List.mem_cons_self _ _)
      · exact ih (fun q2 hq2 => h q2 (List.mem_cons_of_mem _ hq2)) p hp2

lemma buildResults_spec (dff : DataFrame) (h : dff.hasCols = true) (t : ℚ) :
    ∀ (rs : List String) (acc : List (String × Metrics)),
      ∃ res, buildResults dff t rs acc = Except.ok res ∧
        (∀ a, a ∈ res.map Prod.fst ↔ a ∈ rs ∨ a ∈ acc.map Prod.fst) ∧
        ((acc.map Prod.fst).Nodup → (res.map Prod.fst).Nodup) ∧
        (∀ r ∈ rs, List.lookup r res
            = some (calculate_region_metrics
                { hasCols := true, rows := dff.rows.filter (fun o => o.region == r) } t)) ∧
        (∀ r, r ∉ rs → List.lookup r res = List.lookup r acc) ∧
        ((∀ p ∈ acc, p.2 = calculate_region_metrics
              { hasCols := true, rows := dff.rows.filter (fun o => o.region == p.1) } t) →
          ∀ p ∈ res, p.2 = calculate_region_metrics
              { hasCols := true, rows := dff.rows.filter (fun o => o.region == p.1) } t) := by
  intro rs
  induction rs with
  | nil =>
    intro acc
    refine ⟨acc, rfl, ?_, id, ?_, ?_, ?_⟩
    · intro a
      simp
    · intro r hr
      exact absurd hr (List.not_mem_nil r)
    · intro r _
      rfl
    · intro hacc
      exact hacc
  | cons r rest ih =>
    intro acc
    have hstep : buildResults dff t (r :: rest) acc
        = buildResults dff t rest
            (dictInsert r (calculate_region_metrics
              { hasCols := true, rows := dff.rows.filter (fun o => o.region == r) } t) acc) := by
      simp [buildResults, regionEq, h]
    obtain ⟨res, hok, hmem, hnodup, hlook, hlookout, hvals⟩ :=
      ih (dictInsert r (calculate_region_metrics
            { hasCols := true, rows := dff.rows.filter (fun o => o.region == r) } t) acc)
    refine ⟨res, by rw [hstep]; exact hok, ?_, ?_, ?_, ?_, ?_⟩
    · intro a
      rw [hmem a, dictInsert_mem_keys]
      simp only [List.mem_cons]
      tauto
    · intro hacc
      exact hnodup (dictInsert_nodup_keys _ _ _ hacc)
    · intro r2 hr2
      rcases List.mem_cons.mp hr2 with heq | hin
      · subst heq
        by_cases hr2rest : r2 ∈ rest
        · exact hlook r2 hr2rest
        · rw [hlookout r2 hr2rest]
          exact dictInsert_lookup_self r2 _ acc
      · exact hlook r2 hin
    · intro r2 hr2
      have hr2rest : r2 ∉ rest := fun hc => hr2 (List.mem_cons_of_mem _ hc)
      have hr2ne : r2 ≠ r := fun hc => hr2 (hc ▸ List.mem_cons_self _ _)
      rw [hlookout r2 hr2rest, dictInsert_lookup_other r r2 _ acc hr2ne]
    · intro hacc
      refine hvals ?_
      exact dictInsert_values
        (fun r2 => calculate_region_metrics
          { hasCols := true, rows := dff.rows.filter (fun o => o.region == r2) } t) r acc hacc

lemma filter_isin_filter_eq (rows : List Observation) (regions : List String) (r : String)
    (hr : r ∈ regions) :
    (rows.filter (fun o => regions.contains o.region)).filter (fun o => o.region == r)
      = rows.filter (fun o => o.region == r) := by
  rw [List.filter_filter]
  apply List.filter_congr
  intro a _
  by_cases har : a.region = r
  · simp [har, hr]
  · simp [har]

lemma get_latency_metrics_ok (df : DataFrame) (regions : List String) (t : ℚ)
    (results : List (String × Metrics))
    (h : get_latency_metrics df { regions := regions, threshold_ms := t }
      = Except.ok results) :
    df.hasCols = true ∧
      buildResults { hasCols := true, rows := df.rows.filter (fun o => regions.contains o.region) }
        t regions [] = Except.ok results := by
  unfold get_latency_metrics regionIsin at h
  by_cases hc : df.hasCols = true
  · rw [if_pos hc] at h
    rw [hc] at h
    exact ⟨hc, h⟩
  · rw [if_neg hc] at h
    simp at h

/-- C6: whenever a POST request succeeds, every requested region is present in
the results mapping, bound to the metrics of exactly the observations whose
`region` field equals the requested string (String equality, hence exact and
case-sensitive), and a region with no matching observations is bound to the
zero-record rather than omitted. -/
theorem c6_exact_match_per_region (df : DataFrame) (regions : List String) (t : ℚ)
    (results : List (String × Metrics)) (r : String)
    (h : get_latency_metrics df { regions := regions, threshold_ms := t }
      = Except.ok results)
    (hr : r ∈ regions) :
    List.lookup r results
        = some (calculate_region_metrics
            { hasCols := true, rows := df.rows.filter (fun o => o.region == r) } t) ∧
      (df.rows.filter (fun o => o.region == r) = [] →
        List.lookup r results = some zeroMetrics) := by
  obtain ⟨hc, hbuild⟩ := get_latency_metrics_ok df regions t results h
  obtain ⟨res, hok, hmem, hnodup, hlook, hlookout, hvals⟩ :=
    buildResults_spec
      { hasCols := true, rows := df.rows.filter (fun o => regions.contains o.region) }
      rfl t regions []
  have hres : res = results := by
    rw [hok] at hbuild
    exact Except.ok.inj hbuild
  subst hres
  have h1 := hlook r hr
  rw [filter_isin_filter_eq df.rows regions r hr] at h1
  refine ⟨h1, ?_⟩
  intro hempty
  rw [h1, hempty]
  rfl

/-- C10: whenever a POST request succeeds, the results mapping has no
duplicate keys, its keys are exactly the requested regions, its size is the
number of distinct requested regions (duplicate requests overwrite the same
key with the same value), and every entry holds the metrics of its own
region's observations. -/
theorem c10_duplicate_regions_dedup (df : DataFrame) (regions : List String) (t : ℚ)
    (results : List (String × Metrics))
    (h : get_latency_metrics df { regions := regions, threshold_ms := t }
      = Except.ok results) :
    (results.map Prod.fst).Nodup ∧
      (∀ a, a ∈ results.map Prod.fst ↔ a ∈ regions) ∧
      results.length = regions.dedup.length ∧
      ∀ p ∈ results, p.2 = calculate_region_metrics
          { hasCols := true, rows := df.rows.filter (fun o => o.region == p.1) } t := by
  obtain ⟨hc, hbuild⟩ := get_latency_metrics_ok df regions t results h
  obtain ⟨res, hok, hmem, hnodup, hlook, hlookout, hvals⟩ :=
    buildResults_spec
      { hasCols := true, rows := df.rows.filter (fun o => regions.contains o.region) }
      rfl t regions []
  have hres : res = results := by
    rw [hok] at hbuild
    exact Except.ok.inj hbuild
  subst hres
  have hmem2 : ∀ a, a ∈ res.map Prod.fst ↔ a ∈ regions := by
    intro a
    rw [hmem a]
    simp
  have hnodup2 : (res.map Prod.fst).Nodup := hnodup (by simp)
  refine ⟨hnodup2, hmem2, ?_, ?_⟩
  · have hperm := (List.perm_ext_iff_of_nodup hnodup2 (List.nodup_dedup regions)).mpr
      (fun a => (hmem2 a).trans List.mem_dedup.symm)
    calc res.length = (res.map Prod.fst).length := (List.length_map _ _).symm
      _ = regions.dedup.length := hperm.length_eq
  · intro p hp
    have hvp := hvals (by simp) p hp
    have hp1 : p.1 ∈ regions := (hmem2 p.1).mp (List.mem_map_of_mem Prod.fst hp)
    rw [hvp, filter_isin_filter_eq df.rows regions p.1 hp1]

set_option maxRecDepth 8000 in
/-- C6 witness: the theorem applied to the 5-row example frame with regions
`us-east` and `eu-west` and threshold 150; `eu-west` matches no observation
and is bound to the zero-record. -/
theorem c6_exact_match_per_region_witness :
    get_latency_metrics df5 { regions := ["us-east", "eu-west"], threshold_ms := 150 }
        = Except.ok [("us-east",
            { avg_latency := 206, p95_latency := 500, avg_uptime := 99, breaches := 2 }),
          ("eu-west", zeroMetrics)] ∧
      "eu-west" ∈ ["us-east", "eu-west"] ∧
      (List.lookup "eu-west" [("us-east",
            { avg_latency := 206, p95_latency := 500, avg_uptime := 99, breaches := 2 }),
          ("eu-west", zeroMetrics)]
          = some (calculate_region_metrics
              { hasCols := true, rows := df5.rows.filter (fun o => o.region == "eu-west") } 150) ∧
        (df5.rows.filter (fun o => o.region == "eu-west") = [] →
          List.lookup "eu-west" [("us-east",
              { avg_latency := 206, p95_latency := 500, avg_uptime := 99, breaches := 2 }),
            ("eu-west", zeroMetrics)] = some zeroMetrics)) :=
  ⟨by with_unfolding_all rfl, by decide,
    c6_exact_match_per_region df5 ["us-east", "eu-west"] 150
      [("us-east", { avg_latency := 206, p95_latency := 500, avg_uptime := 99, breaches := 2 }),
        ("eu-west", zeroMetrics)]
      "eu-west" (by with_unfolding_all rfl) (by decide)⟩

set_option maxRecDepth 8000 in
/-- C10 witness: the theorem applied to a request listing `us-east` twice; the
mapping still has one entry per distinct region and two entries in total. -/
theorem c10_duplicate_regions_dedup_witness :
    get_latency_metrics df5
        { regions := ["us-east", "eu-west", "us-east"], threshold_ms := 150 }
        = Except.ok [("us-east",
            { avg_latency := 206, p95_latency := 500, avg_uptime := 99, breaches := 2 }),
          ("eu-west", zeroMetrics)] ∧
      (([("us-east",
            { avg_latency := 206, p95_latency := 500, avg_uptime := 99, breaches := 2 }),
          ("eu-west", zeroMetrics)].map
            (Prod.fst (α := String) (β := Metrics))).Nodup ∧
        (∀ a, a ∈ [("us-east",
            { avg_latency := 206, p95_latency := 500, avg_uptime := 99, breaches := 2 }),
          ("eu-west", zeroMetrics)].map Prod.fst
            ↔ a ∈ ["us-east", "eu-west", "us-east"]) ∧
        [("us-east",
            { avg_latency := 206, p95_latency := 500, avg_uptime := 99, breaches := 2 }),
          ("eu-west", zeroMetrics)].length
            = ["us-east", "eu-west", "us-east"].dedup.length ∧
        ∀ p ∈ [("us-east",
            { avg_latency := 206, p95_latency := 500, avg_uptime := 99, breaches := 2 }),
          ("eu-west", zeroMetrics)],
          p.2 = calculate_region_metrics
              { hasCols := true, rows := df5.rows.filter (fun o => o.region == p.1) } 150) :=
  ⟨by with_unfolding_all rfl,
    c10_duplicate_regions_dedup df5 ["us-east", "eu-west", "us-east"] 150
      [("us-east", { avg_latency := 206, p95_latency := 500, avg_uptime := 99, breaches := 2 }),
        ("eu-west", zeroMetrics)]
      (by with_unfolding_all rfl)⟩
